import Mathlib

/-!
Verification of the `vqu` version-synchronisation tool.

This file shallowly embeds the core of the tool (`src/vqu/cli.py` and
`src/vqu/models.py`) in Lean 4:

* Python strings are `List Char`; `str.strip`, `str.lower`, `str.count`
  (non-overlapping, left-to-right) and `str.replace(old, new, 1)` are
  re-implemented with Python's semantics.  Character classes (`\w`, `\s`,
  case mapping) are modelled over ASCII, which is also the class the
  specification names for them.
* `packaging.version.Version` is embedded as a recognizer `pep440Valid`
  for the PEP 440 grammar (`VERSION_PATTERN` with surrounding `\s*`,
  `re.IGNORECASE`, and the optional leading `v`).
* The external query engine (`yq`, invoked as a subprocess) and the Python
  `re` module used for the user-supplied `validate_regex` patterns are
  black boxes in the source design; they are passed in as function
  parameters (`QueryExec`, `RegexMatch`).  The query engine receives the
  path and the current content of the file it is asked about.
* The pydantic model `ConfigFilter` has `validate_assignment = True` and a
  `field_validator` on `result` (mode `after`).  The embedding reflects
  pydantic v2 semantics: during model construction field validators run in
  field declaration order and `info.data` holds only the previously
  validated fields, whereas during an assignment `info.data` holds all
  current fields of the model.
* The file system is an association list from paths to contents; reading
  and writing files in `update_project` go through it.  `eval_project`
  contains no write, exactly as in the source.
-/

namespace Vqu

abbrev Str := List Char

/-! ### Python string primitives -/

/-- Python `\s` over ASCII: the whitespace stripped by `str.strip()`. -/
def isPySpace (c : Char) : Bool :=
  c = ' ' || c = '\t' || c = '\n' || c = '\r' || c = '\x0b' || c = '\x0c'

/-- Python `str.strip()` (ASCII whitespace). -/
def pyStrip (s : Str) : Str :=
  ((s.dropWhile isPySpace).reverse.dropWhile isPySpace).reverse

/-- Python `str.lower()` on an ASCII character. -/
def pyLowerChar (c : Char) : Char :=
  if 'A' ≤ c ∧ c ≤ 'Z' then Char.ofNat (c.toNat + 32) else c

/-- Python `str.lower()` (ASCII). -/
def pyLower (s : Str) : Str := s.map pyLowerChar

/-- The scan behind Python `str.count`: `k` is the number of characters
still to skip after a match before searching again (recursion is
structural on the string so that concrete runs reduce in the kernel). -/
def strCountGo (r : Str) : Nat → Str → Nat
  | _, [] => 0
  | 0, c :: rest =>
    if r.isPrefixOf (c :: rest) then 1 + strCountGo r (r.length - 1) rest
    else strCountGo r 0 rest
  | k + 1, _ :: rest => strCountGo r k rest

/-- Python `content.count(sub)`: the number of non-overlapping occurrences
of `sub` in the string, scanning left to right.  For the empty needle
Python returns `len + 1`. -/
def strCount (r s : Str) : Nat :=
  match r with
  | [] => s.length + 1
  | _ :: _ => strCountGo r 0 s

/-- Python `content.replace(old, new, 1)`: replace the first occurrence of
`old` (the whole string is returned unchanged when there is none; for the
empty needle Python inserts `new` at the front). -/
def replaceFirst (r v : Str) : Str → Str
  | [] => if r = [] then v else []
  | c :: rest =>
    if r.isPrefixOf (c :: rest) then v ++ (c :: rest).drop r.length
    else c :: replaceFirst r v rest

/-- `r` occurs somewhere in `s` as a contiguous substring. -/
def occursIn (r s : Str) : Prop := ∃ a b, s = a ++ r ++ b

/-! ### The default version grammar: `packaging.version.Version` (PEP 440)

`Version(value)` succeeds exactly when `value` matches
`^\s* v? (N!)? N(.N)* pre? post? dev? (+local)? \s*$` case-insensitively,
with `pre = [-_.]?(alpha|a|beta|b|preview|pre|c|rc)[-_.]?N?`,
`post = -N | [-_.]?(post|rev|r)[-_.]?N?`, `dev = [-_.]?dev[-_.]?N?` and
`local = [a-z0-9]+([-_.][a-z0-9]+)*`.  The input is lower-cased and
stripped first (mirroring `re.IGNORECASE` and the `\s*` anchors); the
keyword alternatives are tried in the pattern's order, in which every
keyword precedes its own proper prefixes, so ordered first-match equals
the regex's backtracking search. -/

/-- Consume one or more leading ASCII digits. -/
def dropDigits1 : Str → Option Str
  | c :: rest => if c.isDigit then some (rest.dropWhile Char.isDigit) else none
  | [] => none

/-- Consume `(\.[0-9]+)*` greedily (fuelled; the fuel `s.length` always
suffices because every step consumes at least two characters). -/
def dotSegsF : Nat → Str → Str
  | fuel + 1, '.' :: c :: r2 =>
    if c.isDigit then dotSegsF fuel (r2.dropWhile Char.isDigit) else '.' :: c :: r2
  | _, s => s

/-- Consume `(\.[0-9]+)*` greedily. -/
def dotSegs (s : Str) : Str := dotSegsF s.length s

/-- Consume the epoch `([0-9]+!)?` if present. -/
def afterEpoch (s : Str) : Str :=
  match dropDigits1 s with
  | some ('!' :: r) => r
  | _ => s

/-- Consume the release segment `[0-9]+(\.[0-9]+)*`. -/
def parseRelease (s : Str) : Option Str :=
  (dropDigits1 s).map dotSegs

/-- Consume an optional separator `[-_\.]?`. -/
def dropOptSep : Str → Str
  | c :: r => if c = '-' || c = '_' || c = '.' then r else c :: r
  | [] => []

/-- Consume the first keyword of the list that prefixes the input. -/
def dropFirstKw : List Str → Str → Option Str
  | [], _ => none
  | k :: ks, s => if k.isPrefixOf s then some (s.drop k.length) else dropFirstKw ks s

/-- The pre-release keywords, in the pattern's alternation order. -/
def preKws : List Str :=
  [('a' :: "lpha".toList), ['a'], "beta".toList, ['b'],
   "preview".toList, "pre".toList, ['c'], "rc".toList]

/-- Consume the optional pre-release segment. -/
def parsePre (s : Str) : Str :=
  match dropFirstKw preKws (dropOptSep s) with
  | some r => (dropOptSep r).dropWhile Char.isDigit
  | none => s

/-- Consume the second post-release alternative `[-_\.]?(post|rev|r)[-_\.]?N?`. -/
def postAlt2 (s : Str) : Str :=
  match dropFirstKw ["post".toList, "rev".toList, ['r']] (dropOptSep s) with
  | some r => (dropOptSep r).dropWhile Char.isDigit
  | none => s

/-- Consume the optional post-release segment, `-N` tried first. -/
def parsePost (s : Str) : Str :=
  match s with
  | '-' :: c :: r => if c.isDigit then r.dropWhile Char.isDigit else postAlt2 s
  | _ => postAlt2 s

/-- Consume the optional dev segment `[-_\.]?dev[-_\.]?N?`. -/
def parseDev (s : Str) : Str :=
  match dropFirstKw ["dev".toList] (dropOptSep s) with
  | some r => (dropOptSep r).dropWhile Char.isDigit
  | none => s

/-- Recognize `([-_\.][a-z0-9]+)*` on lower-cased input (fuelled; every
step consumes at least two characters). -/
def localSegsF : Nat → Str → Bool
  | _, [] => true
  | fuel + 1, c :: d :: r2 =>
    if (c = '-' || c = '_' || c = '.') && d.isAlphanum then
      localSegsF fuel (r2.dropWhile Char.isAlphanum)
    else false
  | _, _ => false

/-- Recognize `([-_\.][a-z0-9]+)*` (on lower-cased input). -/
def localSegs (s : Str) : Bool := localSegsF s.length s

/-- Recognize the local version body `[a-z0-9]+([-_\.][a-z0-9]+)*`. -/
def localOk : Str → Bool
  | c :: r => c.isAlphanum && localSegs (r.dropWhile Char.isAlphanum)
  | [] => false

/-- The end of a version: nothing, or `+` followed by a local version. -/
def endLocal : Str → Bool
  | [] => true
  | '+' :: r => localOk r
  | _ => false

/-- PEP 440 recognizer on lower-cased, stripped input. -/
def pep440Core (s : Str) : Bool :=
  let s1 := match s with
    | 'v' :: r => r
    | t => t
  match parseRelease (afterEpoch s1) with
  | none => false
  | some s2 => endLocal (parseDev (parsePost (parsePre s2)))

/-- `packaging.version.Version(value)` succeeds. -/
def pep440Valid (s : Str) : Bool := pep440Core (pyLower (pyStrip s))

/-! ### Docker-tag validation: `re.fullmatch(r"[\w][\w.-]{0,127}", value)` -/

/-- Python `\w` (ASCII): letters, digits, underscore. -/
def isWordChar (c : Char) : Bool := c.isAlphanum || c = '_'

/-- Full match of `[\w][\w.-]{0,127}`. -/
def isDockerTag : Str → Bool
  | [] => false
  | c :: cs =>
    isWordChar c && decide (cs.length ≤ 127)
      && cs.all (fun d => isWordChar d || d = '.' || d = '-')

/-! ### Data model (`src/vqu/models.py`) -/

/-- `ConfigFileFormat`: the supported configuration file formats. -/
inductive ConfigFileFormat where
  | dotenv | json | toml | xml | yaml
deriving DecidableEq

/-- `ConfigFileFormat.to_yq_format`: `dotenv` maps to `props`, everything
else passes through as its own value string. -/
def ConfigFileFormat.to_yq_format : ConfigFileFormat → Str
  | .dotenv => "props".toList
  | .json => "json".toList
  | .toml => "toml".toList
  | .xml => "xml".toList
  | .yaml => "yaml".toList

/-- `ConfigFilter`: one extraction expression with its recorded result and
optional validation settings. -/
structure ConfigFilter where
  expression : Str
  result : Option Str
  validate_docker_tag : Option Bool
  validate_regex : Option Str
deriving DecidableEq

/-- `ConfigFile`: a path, its declared format and its filters. -/
structure ConfigFile where
  path : Str
  format : ConfigFileFormat
  filters : List ConfigFilter
deriving DecidableEq

/-- `Project`: the canonical version and the config files it governs. -/
structure Project where
  version : Str
  config_files : List ConfigFile
deriving DecidableEq

/-- The `ValueError`s raised by `ConfigFilter.validate_result` (wrapped by
pydantic into a `ValidationError`), plus pydantic's own `min_length`
field rejections. -/
inductive ResultError where
  | notDockerTag (value : Str)
  | regexMismatch (pattern value : Str)
  | notVersion (value : Str)
  | emptyField (field : Str)
deriving DecidableEq

/-- The abstracted `re.fullmatch` used for `validate_regex` patterns:
`rm pattern value` tells whether `value` fully matches `pattern`. -/
abbrev RegexMatch := Str → Str → Bool

/-- `ConfigFilter.validate_result`, as it runs with the data pydantic hands
to the validator: `docker` is `info.data.get("validate_docker_tag")` and
`regex` is `info.data.get("validate_regex")` (each `none` when the field is
missing from `info.data` or holds `None`).  Python truthiness: `False` and
`None` are falsy for the docker flag, the empty string is falsy for the
regex.  `None` results pass through; empty or case-insensitive `"null"`
values are normalized to `None`; otherwise the docker-tag pattern, the
custom regex, or the PEP 440 grammar is checked, in that order. -/
def validate_result_data (docker : Option Bool) (regex : Option Str)
    (rm : RegexMatch) : Option Str → Except ResultError (Option Str)
  | none => .ok none
  | some v =>
    if v = [] ∨ pyLower v = "null".toList then .ok none
    else if docker = some true then
      if isDockerTag v then .ok (some v) else .error (.notDockerTag v)
    else
      match regex with
      | some (c :: cs) =>
        if rm (c :: cs) v then .ok (some v) else .error (.regexMismatch (c :: cs) v)
      | _ =>
        if pep440Valid v then .ok (some v) else .error (.notVersion v)

/-- Constructing a `ConfigFilter` (pydantic model validation).  Fields are
validated in declaration order (`expression`, `result`,
`validate_docker_tag`, `validate_regex`); when the validator of `result`
runs, `info.data` holds only the previously validated fields, so its
lookups of `validate_docker_tag` and `validate_regex` both yield `None`
and the default grammar branch is the only reachable one.  `expression`
and `validate_regex` carry pydantic `min_length=1` constraints. -/
def ConfigFilter.pyInit (expression : Str) (result : Option Str)
    (docker : Option Bool) (regex : Option Str) : Except ResultError ConfigFilter :=
  if expression = [] then .error (.emptyField ("expression".toList))
  else
    match validate_result_data none none (fun _ _ => false) result with
    | .error e => .error e
    | .ok stored =>
      if regex = some [] then .error (.emptyField ("validate_regex".toList))
      else .ok ⟨expression, stored, docker, regex⟩

/-- Assigning `flt.result := value` with `validate_assignment = True`:
the validator runs with `info.data` holding all current fields of the
model, and on failure the pydantic `ValidationError` propagates and the
field keeps its old value. -/
def ConfigFilter.setResult (flt : ConfigFilter) (rm : RegexMatch)
    (value : Option Str) : Except ResultError ConfigFilter :=
  match validate_result_data flt.validate_docker_tag flt.validate_regex rm value with
  | .error e => .error e
  | .ok stored => .ok { flt with result := stored }

/-! ### File system and external query engine -/

/-- The file system: an association list from paths to file contents. -/
abbrev Fs := List (Str × Str)

/-- Look a path up (`os.path.exists` / `open(path, "r")`). -/
def readFs : Fs → Str → Option Str
  | [], _ => none
  | (p, c) :: rest, q => if p = q then some c else readFs rest q

/-- Overwrite a path's content (`open(path, "w")` + full write). -/
def writeFs : Fs → Str → Str → Fs
  | [], q, c => [(q, c)]
  | (p, c0) :: rest, q, c => if p = q then (p, c) :: rest else (p, c0) :: writeFs rest q c

/-- What `subprocess.run` returns from the query engine: captured standard
output and the exit status. -/
structure QueryResult where
  stdout : Str
  returncode : Int
deriving DecidableEq

/-- The abstracted query engine: given the translated format string, the
filter expression, the file path and the file's current content (the part
of the world the engine reads), produce stdout and an exit status. -/
abbrev QueryExec := Str → Str → Str → Str → QueryResult

/-! ### Extraction driver (`eval_project` in `src/vqu/cli.py`) -/

/-- The displayed classification for one filter line: the source prints
`[Value not found]` in red, a differing version in yellow, a matching
version in green; coloring itself is presentation. -/
inductive ShownValue where
  | notFound
  | differs (v : Str)
  | matchesVersion (v : Str)
deriving DecidableEq

/-- The lines `eval_project` prints. -/
inductive ReportLine where
  | header (name version : Str)
  | fileMissing (path : Str)
  | fileHeader (path : Str)
  | filterValue (expression : Str) (shown : ShownValue)
  | cmdEcho (format expression path : Str)
deriving DecidableEq

/-- The body of the filter loop in `eval_project`: run the query engine,
strip its stdout, normalize empty/`"null"` captures to `None`, assign the
capture to `config_filter.result` (which runs the pydantic validator and
may raise), then report the value, echoing the command on a non-zero exit
status.  A raised `ValidationError` propagates as `.error`. -/
def eval_filter (rm : RegexMatch) (exec : QueryExec) (projectVersion : Str)
    (format : Str) (path content : Str) (flt : ConfigFilter) :
    Except ResultError (ConfigFilter × List ReportLine) :=
  let res := exec format flt.expression path content
  let out := pyStrip res.stdout
  let captured : Option Str :=
    if out = [] ∨ pyLower out = "null".toList then none else some out
  match flt.setResult rm captured with
  | .error e => .error e
  | .ok flt2 =>
    let shown : ShownValue :=
      match captured with
      | none => .notFound
      | some v => if v = projectVersion then .matchesVersion v else .differs v
    let lines := [ReportLine.filterValue flt.expression shown]
    let lines :=
      if res.returncode ≠ 0 then lines ++ [ReportLine.cmdEcho format flt.expression path]
      else lines
    .ok (flt2, lines)

/-- All filters of one file, in declared order. -/
def eval_filters (rm : RegexMatch) (exec : QueryExec) (projectVersion : Str)
    (format : Str) (path content : Str) :
    List ConfigFilter → Except ResultError (List ConfigFilter × List ReportLine)
  | [] => .ok ([], [])
  | f :: rest =>
    match eval_filter rm exec projectVersion format path content f with
    | .error e => .error e
    | .ok (f2, ls) =>
      match eval_filters rm exec projectVersion format path content rest with
      | .error e => .error e
      | .ok (rest2, ls2) => .ok (f2 :: rest2, ls ++ ls2)

/-- One config file: a missing path is reported and all its filters are
skipped; otherwise every filter is evaluated against the file. -/
def eval_file (rm : RegexMatch) (exec : QueryExec) (projectVersion : Str)
    (fs : Fs) (cf : ConfigFile) : Except ResultError (ConfigFile × List ReportLine) :=
  match readFs fs cf.path with
  | none => .ok (cf, [ReportLine.fileMissing cf.path])
  | some content =>
    match eval_filters rm exec projectVersion (ConfigFileFormat.to_yq_format cf.format)
        cf.path content cf.filters with
    | .error e => .error e
    | .ok (fl2, ls) => .ok ({ cf with filters := fl2 }, ReportLine.fileHeader cf.path :: ls)

/-- All config files, in declared order. -/
def eval_files (rm : RegexMatch) (exec : QueryExec) (projectVersion : Str)
    (fs : Fs) : List ConfigFile → Except ResultError (List ConfigFile × List ReportLine)
  | [] => .ok ([], [])
  | cf :: rest =>
    match eval_file rm exec projectVersion fs cf with
    | .error e => .error e
    | .ok (cf2, ls) =>
      match eval_files rm exec projectVersion fs rest with
      | .error e => .error e
      | .ok (rest2, ls2) => .ok (cf2 :: rest2, ls ++ ls2)

/-- `eval_project`: print the header, then evaluate every config file.
The function reads the file system and never writes it (the source
contains no write); on success it returns the project with refreshed
filter results together with the printed lines. -/
def eval_project (rm : RegexMatch) (exec : QueryExec) (name : Str)
    (fs : Fs) (p : Project) : Except ResultError (Project × List ReportLine) :=
  match eval_files rm exec p.version fs p.config_files with
  | .error e => .error e
  | .ok (cfs, ls) =>
    .ok ({ p with config_files := cfs }, ReportLine.header name p.version :: ls)

/-! ### Update validator and patcher (`update_project` in `src/vqu/cli.py`) -/

/-- Everything `update_project` can raise: a pydantic `ValidationError`
from the preparatory evaluation, the three `ValueError`s of the filter
loop, or `open` failing on a missing file. -/
inductive VquError where
  | invalidResult (e : ResultError)
  | noValue (expression path : Str)
  | notFound (value path : Str)
  | multipleOccurrences (value path : Str)
  | missingFile (path : Str)
deriving DecidableEq

/-- The success notice `'<path>' has been updated to version <version>.` -/
structure Notice where
  path : Str
  version : Str
deriving DecidableEq

/-- The body of the filter loop in `update_project`: require a stored
result, count its occurrences in the current content, fail on zero or on
more than one, otherwise replace the first occurrence with the project's
version. -/
def apply_filter (path version content : Str) (flt : ConfigFilter) :
    Except VquError Str :=
  match flt.result with
  | none => .error (.noValue flt.expression path)
  | some r =>
    if strCount r content = 0 then .error (.notFound r path)
    else if 1 < strCount r content then .error (.multipleOccurrences r path)
    else .ok (replaceFirst r version content)

/-- All filters of one file, threaded through the mutated content. -/
def updateContent (path version : Str) (content : Str) :
    List ConfigFilter → Except VquError Str
  | [] => .ok content
  | f :: rest =>
    match apply_filter path version content f with
    | .error e => .error e
    | .ok c2 => updateContent path version c2 rest

/-- The file loop of `update_project`: read each file, validate and patch
all its filters, and only then write the file back and emit its notice; an
error aborts immediately, leaving the file system as it was after the
files already processed (their writes persist, as in the source). -/
def updateFiles (version : Str) : Fs → List ConfigFile → Fs × Except VquError (List Notice)
  | fs, [] => (fs, .ok [])
  | fs, cf :: rest =>
    match readFs fs cf.path with
    | none => (fs, .error (.missingFile cf.path))
    | some content =>
      match updateContent cf.path version content cf.filters with
      | .error e => (fs, .error e)
      | .ok newContent =>
        let res := updateFiles version (writeFs fs cf.path newContent) rest
        (res.1, res.2.map (fun ns => ⟨cf.path, version⟩ :: ns))

/-- `update_project`: refresh every filter's result by a silent evaluation
pass, then run the file loop. -/
def update_project (rm : RegexMatch) (exec : QueryExec) (name : Str)
    (fs : Fs) (p : Project) : Fs × Except VquError (Project × List Notice) :=
  match eval_project rm exec name fs p with
  | .error e => (fs, .error (.invalidResult e))
  | .ok (p2, _) =>
    let res := updateFiles p2.version fs p2.config_files
    (res.1, res.2.map (fun ns => (p2, ns)))

/-! ### Skeletons: everything evaluation may not change -/

/-- The parts of a filter other than `result`. -/
def filterSkeleton (f : ConfigFilter) : Str × Option Bool × Option Str :=
  (f.expression, f.validate_docker_tag, f.validate_regex)

/-- The parts of a config file other than its filters' results. -/
def fileSkeleton (cf : ConfigFile) :
    Str × ConfigFileFormat × List (Str × Option Bool × Option Str) :=
  (cf.path, cf.format, cf.filters.map filterSkeleton)

/-- The parts of a project other than its filters' results. -/
def projectSkeleton (p : Project) :
    Str × List (Str × ConfigFileFormat × List (Str × Option Bool × Option Str)) :=
  (p.version, p.config_files.map fileSkeleton)

/-! ### The character classes the specification names -/

/-- The specification's word-character class `[A-Za-z0-9_]`, written from
its words, to be compared with `isWordChar` from the source's `\w`. -/
def wordCharSpec (c : Char) : Prop :=
  ('A' ≤ c ∧ c ≤ 'Z') ∨ ('a' ≤ c ∧ c ≤ 'z') ∨ ('0' ≤ c ∧ c ≤ '9') ∨ c = '_'

/-- The specification's Docker-tag grammar `[A-Za-z0-9_][A-Za-z0-9_.-]{0,127}`:
the first character is a word character, at most 128 characters in total,
the remaining ones word characters, dot, or hyphen. -/
def dockerTagSpec : Str → Prop
  | [] => False
  | c :: cs => wordCharSpec c ∧ cs.length ≤ 127 ∧ ∀ d ∈ cs, wordCharSpec d ∨ d = '.' ∨ d = '-'

instance (c : Char) : Decidable (wordCharSpec c) := by unfold wordCharSpec; infer_instance
instance (s : Str) : Decidable (dockerTagSpec s) := by
  unfold dockerTagSpec; cases s <;> infer_instance

/-! ### Concrete scenarios used by claim theorems and witnesses -/

/-- A regex matcher that rejects everything (never consulted by the
scenarios that use it, whose filters carry no `validate_regex`). -/
def rmNone : RegexMatch := fun _ _ => false

/-- A single YAML file holding version `1.0.0`. -/
def c4content0 : Str := "version: 1.0.0\n".toList

/-- The same file after an update to version `2.0.0`. -/
def c4content1 : Str := "version: 2.0.0\n".toList

/-- A query engine behaving as `yq` does on that file: it reports the
version currently stored in the content it is given. -/
def c4exec : QueryExec := fun _ _ _ content =>
  if content = c4content0 then ⟨"1.0.0\n".toList, 0⟩
  else if content = c4content1 then ⟨"2.0.0\n".toList, 0⟩
  else ⟨[], 1⟩

/-- A project declaring canonical version `2.0.0` for that file. -/
def c4proj : Project :=
  ⟨"2.0.0".toList, [⟨"app.yaml".toList, .yaml, [⟨".version".toList, none, none, none⟩]⟩]⟩

/-- `c4proj` after an evaluation pass against the original content. -/
def c4proj1 : Project :=
  ⟨"2.0.0".toList, [⟨"app.yaml".toList, .yaml,
    [⟨".version".toList, some ("1.0.0".toList), none, none⟩]⟩]⟩

/-- `c4proj` after an evaluation pass against the updated content. -/
def c4proj2 : Project :=
  ⟨"2.0.0".toList, [⟨"app.yaml".toList, .yaml,
    [⟨".version".toList, some ("2.0.0".toList), none, none⟩]⟩]⟩

/-- A query engine whose first expression captures the invalid version
text `abc` and whose second captures `1.0.0`. -/
def c3exec : QueryExec := fun _ expr _ _ =>
  if expr = ".first".toList then ⟨"abc\n".toList, 0⟩ else ⟨"1.0.0\n".toList, 0⟩

/-- One file with two filters, neither carrying validation settings. -/
def c3proj : Project :=
  ⟨"1.0.0".toList, [⟨"app.yaml".toList, .yaml,
    [⟨".first".toList, none, none, none⟩, ⟨".second".toList, none, none, none⟩]⟩]⟩

/-- The file system for the `c3` scenario. -/
def c3fs : Fs := [("app.yaml".toList, "first: abc\nsecond: 1.0.0\n".toList)]

/-- First config file of the fail-fast scenario: validates and is written. -/
def c2cfA : ConfigFile :=
  ⟨"a.yaml".toList, .yaml, [⟨".v".toList, some ("1.0.0".toList), none, none⟩]⟩

/-- Second config file: its stored result does not occur in its content. -/
def c2cfB : ConfigFile :=
  ⟨"b.yaml".toList, .yaml, [⟨".v".toList, some ("1.2.3".toList), none, none⟩]⟩

/-- Third config file: would validate, but must never be reached. -/
def c2cfC : ConfigFile :=
  ⟨"c.yaml".toList, .yaml, [⟨".v".toList, some ("1.0.0".toList), none, none⟩]⟩

/-- The file system for the fail-fast scenario. -/
def c2fs : Fs :=
  [("a.yaml".toList, "x: 1.0.0\n".toList), ("b.yaml".toList, "y: 9\n".toList),
   ("c.yaml".toList, "z: 1.0.0\n".toList)]

/-- The same file system after the first file was updated to `2.0.0`. -/
def c2fs1 : Fs :=
  [("a.yaml".toList, "x: 2.0.0\n".toList), ("b.yaml".toList, "y: 9\n".toList),
   ("c.yaml".toList, "z: 1.0.0\n".toList)]

/-- A query engine that reports the literal ` NULL \n` for everything. -/
def c7exec : QueryExec := fun _ _ _ _ => ⟨" NULL \n".toList, 0⟩

/-! ## Lemmas about the string primitives -/

theorem strCountGo_skip (r : Str) : ∀ (s : Str) (k : Nat),
    strCountGo r k s = strCountGo r 0 (s.drop k) := by
  intro s
  induction s with
  | nil => intro k; cases k <;> rfl
  | cons c rest ih =>
    intro k
    cases k with
    | zero => rw [List.drop_zero]
    | succ j =>
      show strCountGo r j rest = _
      rw [ih j, List.drop_succ_cons]

theorem strCount_nil {r : Str} (hr : r ≠ []) : strCount r [] = 0 := by
  cases r with
  | nil => exact absurd rfl hr
  | cons x xs => rfl

theorem strCount_cons {r : Str} (hr : r ≠ []) (c : Char) (rest : Str) :
    strCount r (c :: rest)
      = if r.isPrefixOf (c :: rest) then 1 + strCount r (rest.drop (r.length - 1))
        else strCount r rest := by
  cases r with
  | nil => exact absurd rfl hr
  | cons x xs =>
    by_cases hp : (x :: xs).isPrefixOf (c :: rest)
    · rw [if_pos hp]
      show strCountGo (x :: xs) 0 (c :: rest) = _
      simp only [strCountGo, if_pos hp]
      rw [strCountGo_skip]
      rfl
    · rw [if_neg hp]
      show strCountGo (x :: xs) 0 (c :: rest) = _
      simp only [strCountGo, if_neg hp]
      rfl

theorem replaceFirst_decomp {r s : Str} (h : 1 ≤ strCount r s) (v : Str) :
    ∃ a b, s = a ++ r ++ b ∧ replaceFirst r v s = a ++ v ++ b := by
  induction s with
  | nil =>
    cases r with
    | nil => exact ⟨[], [], rfl, by simp [replaceFirst]⟩
    | cons x xs =>
      rw [strCount_nil (by simp)] at h
      omega
  | cons c rest ih =>
    by_cases hr : r = []
    · subst hr
      refine ⟨[], c :: rest, rfl, ?_⟩
      simp [replaceFirst, List.isPrefixOf]
    · rw [strCount_cons hr] at h
      by_cases hp : r.isPrefixOf (c :: rest)
      · obtain ⟨t, ht⟩ := List.isPrefixOf_iff_prefix.mp hp
        refine ⟨[], t, by simp [ht.symm], ?_⟩
        have hstep : replaceFirst r v (c :: rest) = v ++ (c :: rest).drop r.length := by
          simp only [replaceFirst, if_pos hp]
        rw [hstep, ← ht, List.drop_left]
        simp
      · simp only [if_neg hp] at h
        obtain ⟨a, b, hab, hrep⟩ := ih h
        refine ⟨c :: a, b, by simp [hab], ?_⟩
        simp only [replaceFirst, if_neg hp, hrep, List.cons_append]

theorem strCount_eq_zero_iff {r s : Str} : strCount r s = 0 ↔ ¬ occursIn r s := by
  constructor
  · intro h hocc
    induction s with
    | nil =>
      obtain ⟨a, b, hab⟩ := hocc
      have hr : r = [] := by
        have h2 := hab.symm
        rw [List.append_assoc] at h2
        exact (List.append_eq_nil.mp (List.append_eq_nil.mp h2).2).1
      subst hr
      simp [strCount] at h
    | cons c rest ih =>
      by_cases hr : r = []
      · subst hr
        simp [strCount] at h
      · rw [strCount_cons hr] at h
        by_cases hp : r.isPrefixOf (c :: rest)
        · rw [if_pos hp] at h; omega
        · rw [if_neg hp] at h
          obtain ⟨a, b, hab⟩ := hocc
          cases a with
          | nil =>
            exact hp (List.isPrefixOf_iff_prefix.mpr ⟨b, by simpa using hab.symm⟩)
          | cons a0 a1 =>
            simp only [List.cons_append, List.cons.injEq] at hab
            exact ih h ⟨a1, b, hab.2⟩
  · intro h
    by_contra hne
    have h1 : 1 ≤ strCount r s := by omega
    obtain ⟨a, b, hab, _⟩ := replaceFirst_decomp h1 r
    exact h ⟨a, b, hab⟩

theorem replaceFirst_self (r s : Str) : replaceFirst r r s = s := by
  induction s with
  | nil => simp only [replaceFirst]; split <;> simp_all
  | cons c rest ih =>
    by_cases hp : r.isPrefixOf (c :: rest)
    · obtain ⟨t, ht⟩ := List.isPrefixOf_iff_prefix.mp hp
      have hstep : replaceFirst r r (c :: rest) = r ++ (c :: rest).drop r.length := by
        simp only [replaceFirst, if_pos hp]
      rw [hstep, ← ht, List.drop_left]
    · simp only [replaceFirst, if_neg hp, ih]

/-! ## Lemmas about the update loops -/

theorem updateContent_append (path version : Str) (l1 l2 : List ConfigFilter) :
    ∀ content, updateContent path version content (l1 ++ l2)
      = match updateContent path version content l1 with
        | .ok c2 => updateContent path version c2 l2
        | .error e => .error e := by
  induction l1 with
  | nil => intro content; simp [updateContent]
  | cons f l1 ih =>
    intro content
    simp only [List.cons_append, updateContent]
    cases apply_filter path version content f with
    | error e => rfl
    | ok c2 => exact ih c2

theorem readFs_writeFs_of_read {fs : Fs} {p c : Str} (h : readFs fs p = some c) :
    ∀ q, readFs (writeFs fs p c) q = readFs fs q := by
  induction fs with
  | nil => simp [readFs] at h
  | cons e rest ih =>
    intro q
    obtain ⟨p0, c0⟩ := e
    by_cases hp : p0 = p
    · subst hp
      rw [readFs, if_pos rfl] at h
      cases h
      simp [writeFs, readFs]
    · rw [readFs, if_neg hp] at h
      simp only [writeFs, if_neg hp, readFs]
      split
      · rfl
      · exact ih h q

/-! ## Lemmas about the evaluation pass -/

theorem setResult_skeleton {f f2 : ConfigFilter} {rm : RegexMatch} {v : Option Str}
    (h : f.setResult rm v = .ok f2) : filterSkeleton f2 = filterSkeleton f := by
  unfold ConfigFilter.setResult at h
  split at h
  · exact absurd h (by simp)
  · simp only [Except.ok.injEq] at h
    rw [← h]
    rfl

theorem eval_filter_skeleton {rm : RegexMatch} {exec : QueryExec}
    {pv format path content : Str} {f f2 : ConfigFilter} {ls : List ReportLine}
    (h : eval_filter rm exec pv format path content f = .ok (f2, ls)) :
    filterSkeleton f2 = filterSkeleton f := by
  simp only [eval_filter] at h
  cases heq : ConfigFilter.setResult f rm
      (if pyStrip (exec format f.expression path content).stdout = [] ∨
          pyLower (pyStrip (exec format f.expression path content).stdout) = "null".toList
       then none
       else some (pyStrip (exec format f.expression path content).stdout)) with
  | error e => rw [heq] at h; exact absurd h (by simp)
  | ok flt2 =>
    rw [heq] at h
    simp only [Except.ok.injEq, Prod.mk.injEq] at h
    rw [← h.1]
    exact setResult_skeleton heq

theorem eval_filters_skeleton {rm : RegexMatch} {exec : QueryExec}
    {pv format path content : Str} :
    ∀ {l l2 : List ConfigFilter} {ls : List ReportLine},
      eval_filters rm exec pv format path content l = .ok (l2, ls) →
      l2.map filterSkeleton = l.map filterSkeleton := by
  intro l
  induction l with
  | nil =>
    intro l2 ls h
    simp only [eval_filters, Except.ok.injEq, Prod.mk.injEq] at h
    rw [← h.1]
  | cons f rest ih =>
    intro l2 ls h
    rw [eval_filters] at h
    cases heq1 : eval_filter rm exec pv format path content f with
    | error e => rw [heq1] at h; exact absurd h (by simp)
    | ok p1 =>
      obtain ⟨f2, ls1⟩ := p1
      rw [heq1] at h
      cases heq2 : eval_filters rm exec pv format path content rest with
      | error e => rw [heq2] at h; exact absurd h (by simp)
      | ok p2 =>
        obtain ⟨rest2, ls2⟩ := p2
        rw [heq2] at h
        simp only [Except.ok.injEq, Prod.mk.injEq] at h
        rw [← h.1]
        simp only [List.map_cons]
        rw [eval_filter_skeleton heq1, ih heq2]

theorem eval_file_skeleton {rm : RegexMatch} {exec : QueryExec} {pv : Str}
    {fs : Fs} {cf cf2 : ConfigFile} {ls : List ReportLine}
    (h : eval_file rm exec pv fs cf = .ok (cf2, ls)) :
    fileSkeleton cf2 = fileSkeleton cf := by
  rw [eval_file] at h
  cases hread : readFs fs cf.path with
  | none =>
    rw [hread] at h
    simp only [Except.ok.injEq, Prod.mk.injEq] at h
    rw [← h.1]
  | some content =>
    rw [hread] at h
    dsimp only at h
    cases heq : eval_filters rm exec pv (ConfigFileFormat.to_yq_format cf.format)
        cf.path content cf.filters with
    | error e => rw [heq] at h; exact absurd h (by simp)
    | ok p =>
      obtain ⟨fl2, ls2⟩ := p
      rw [heq] at h
      simp only [Except.ok.injEq, Prod.mk.injEq] at h
      rw [← h.1]
      simp only [fileSkeleton]
      rw [eval_filters_skeleton heq]

theorem eval_files_skeleton {rm : RegexMatch} {exec : QueryExec} {pv : Str} {fs : Fs} :
    ∀ {l l2 : List ConfigFile} {ls : List ReportLine},
      eval_files rm exec pv fs l = .ok (l2, ls) →
      l2.map fileSkeleton = l.map fileSkeleton := by
  intro l
  induction l with
  | nil =>
    intro l2 ls h
    simp only [eval_files, Except.ok.injEq, Prod.mk.injEq] at h
    rw [← h.1]
  | cons cf rest ih =>
    intro l2 ls h
    rw [eval_files] at h
    cases heq1 : eval_file rm exec pv fs cf with
    | error e => rw [heq1] at h; exact absurd h (by simp)
    | ok p1 =>
      obtain ⟨cf2, ls1⟩ := p1
      rw [heq1] at h
      cases heq2 : eval_files rm exec pv fs rest with
      | error e => rw [heq2] at h; exact absurd h (by simp)
      | ok p2 =>
        obtain ⟨rest2, ls2⟩ := p2
        rw [heq2] at h
        simp only [Except.ok.injEq, Prod.mk.injEq] at h
        rw [← h.1]
        simp only [List.map_cons]
        rw [eval_file_skeleton heq1, ih heq2]

theorem wordChar_iff (c : Char) : isWordChar c = true ↔ wordCharSpec c := by
  unfold isWordChar wordCharSpec Char.isAlphanum Char.isAlpha Char.isDigit Char.isUpper Char.isLower
  simp only [Bool.or_eq_true, Bool.and_eq_true, decide_eq_true_eq, beq_iff_eq]
  constructor
  · rintro (((⟨h1, h2⟩ | ⟨h1, h2⟩) | ⟨h1, h2⟩) | h)
    · exact Or.inl ⟨h1, h2⟩
    · exact Or.inr (Or.inl ⟨h1, h2⟩)
    · exact Or.inr (Or.inr (Or.inl ⟨h1, h2⟩))
    · exact Or.inr (Or.inr (Or.inr h))
  · rintro (⟨h1, h2⟩ | ⟨h1, h2⟩ | ⟨h1, h2⟩ | h)
    · exact Or.inl (Or.inl (Or.inl ⟨h1, h2⟩))
    · exact Or.inl (Or.inl (Or.inr ⟨h1, h2⟩))
    · exact Or.inl (Or.inr ⟨h1, h2⟩)
    · exact Or.inr h

theorem isDockerTag_iff (v : Str) : isDockerTag v = true ↔ dockerTagSpec v := by
  cases v with
  | nil => simp [isDockerTag, dockerTagSpec]
  | cons c cs =>
    simp only [isDockerTag, dockerTagSpec, Bool.and_eq_true, decide_eq_true_eq,
      List.all_eq_true, Bool.or_eq_true, beq_iff_eq]
    constructor
    · rintro ⟨⟨hw, hlen⟩, hall⟩
      refine ⟨(wordChar_iff c).mp hw, hlen, fun d hd => ?_⟩
      rcases hall d hd with (h | h) | h
      · exact Or.inl ((wordChar_iff d).mp h)
      · exact Or.inr (Or.inl h)
      · exact Or.inr (Or.inr h)
    · rintro ⟨hw, hlen, hall⟩
      refine ⟨⟨(wordChar_iff c).mpr hw, hlen⟩, fun d hd => ?_⟩
      rcases hall d hd with h | h | h
      · exact Or.inl (Or.inl ((wordChar_iff d).mpr h))
      · exact Or.inl (Or.inr h)
      · exact Or.inr h

/-! ## Success-shape helpers for the evaluation pass -/

theorem eval_filters_singleton {rm : RegexMatch} {exec : QueryExec}
    {pv format path content : Str} {f f2 : ConfigFilter} {ls : List ReportLine}
    (h : eval_filter rm exec pv format path content f = .ok (f2, ls)) :
    eval_filters rm exec pv format path content [f] = .ok ([f2], ls) := by
  simp only [eval_filters, h]
  simp

theorem eval_file_single {rm : RegexMatch} {exec : QueryExec} {pv : Str}
    {fs : Fs} {cf : ConfigFile} {content : Str} {fl2 : List ConfigFilter}
    {ls : List ReportLine} (hread : readFs fs cf.path = some content)
    (h : eval_filters rm exec pv (ConfigFileFormat.to_yq_format cf.format)
        cf.path content cf.filters = .ok (fl2, ls)) :
    eval_file rm exec pv fs cf
      = .ok ({ cf with filters := fl2 }, ReportLine.fileHeader cf.path :: ls) := by
  simp only [eval_file, hread, h]

theorem eval_files_singleton {rm : RegexMatch} {exec : QueryExec} {pv : Str}
    {fs : Fs} {cf cf2 : ConfigFile} {ls : List ReportLine}
    (h : eval_file rm exec pv fs cf = .ok (cf2, ls)) :
    eval_files rm exec pv fs [cf] = .ok ([cf2], ls) := by
  simp only [eval_files, h]
  simp

theorem eval_project_of {rm : RegexMatch} {exec : QueryExec} {name : Str}
    {fs : Fs} {p : Project} {cfs : List ConfigFile} {ls : List ReportLine}
    (h : eval_files rm exec p.version fs p.config_files = .ok (cfs, ls)) :
    eval_project rm exec name fs p
      = .ok ({ p with config_files := cfs }, ReportLine.header name p.version :: ls) := by
  simp only [eval_project, h]

/-! ## The claims -/

/-- C1 (counterexample): the claim reads "if it occurs more than once it
fails with a 'multiple occurrences' error".  The stored result `1.0.1`
occurs at two distinct positions of the content `1.0.1.0.1` (the two
occurrences overlap), yet the update loop succeeds and replaces the first
occurrence, because `str.count` counts non-overlapping occurrences only
and finds one. -/
theorem C1_counterexample :
    ("1.0.1.0.1".toList = [] ++ "1.0.1".toList ++ ".0.1".toList
      ∧ "1.0.1.0.1".toList = "1.0.".toList ++ "1.0.1".toList ++ []
      ∧ ([] : Str) ≠ "1.0.".toList)
    ∧ updateContent ("p".toList) ("2.0.0".toList) ("1.0.1.0.1".toList)
        [⟨".v".toList, some ("1.0.1".toList), none, none⟩]
      = .ok ("2.0.0.0.1".toList) :=
  ⟨⟨rfl, rfl, by decide⟩, rfl⟩

/-- C1 (amended): during an update, each filter of a config file is
checked against the current content (the original content as mutated by
the preceding filters): if its stored result does not occur at all, the
operation fails with the 'not found' error naming the value and the file
path; if the non-overlapping left-to-right occurrence count (Python
`str.count`) exceeds one, it fails with the 'multiple occurrences' error
naming the value and the file path; if that count is exactly one, the
first occurrence of the result substring is replaced by the project's
canonical version and every other character of the content is unchanged,
and the loop continues with the remaining filters. -/
theorem C1_update_occurrence_cases (path version content : Str)
    (pre post : List ConfigFilter) (flt : ConfigFilter) (c1 r : Str)
    (hpre : updateContent path version content pre = .ok c1)
    (hres : flt.result = some r) :
    (¬ occursIn r c1 →
      updateContent path version content (pre ++ flt :: post)
        = .error (.notFound r path))
    ∧ (2 ≤ strCount r c1 →
      updateContent path version content (pre ++ flt :: post)
        = .error (.multipleOccurrences r path))
    ∧ (strCount r c1 = 1 →
      ∃ a b, c1 = a ++ r ++ b
        ∧ updateContent path version content (pre ++ flt :: post)
          = updateContent path version (a ++ version ++ b) post) := by
  have happ := updateContent_append path version pre (flt :: post) content
  rw [hpre] at happ
  dsimp only at happ
  refine ⟨?_, ?_, ?_⟩
  · intro hocc
    have hz : strCount r c1 = 0 := strCount_eq_zero_iff.mpr hocc
    have hstep : apply_filter path version c1 flt = .error (.notFound r path) := by
      simp only [apply_filter, hres]
      rw [if_pos hz]
    rw [happ]
    simp only [updateContent, hstep]
  · intro hge
    have hstep : apply_filter path version c1 flt
        = .error (.multipleOccurrences r path) := by
      simp only [apply_filter, hres]
      rw [if_neg (by omega), if_pos (by omega)]
    rw [happ]
    simp only [updateContent, hstep]
  · intro hone
    obtain ⟨a, b, hab, hrep⟩ := @replaceFirst_decomp r c1 (by omega) version
    refine ⟨a, b, hab, ?_⟩
    have hstep : apply_filter path version c1 flt
        = .ok (replaceFirst r version c1) := by
      simp only [apply_filter, hres]
      rw [if_neg (by omega), if_neg (by omega)]
    rw [happ]
    simp only [updateContent, hstep, hrep]

/-- C1 (witness): a content holding `1.0.0` twice makes the (single)
filter fail with the 'multiple occurrences' error. -/
theorem C1_witness :
    updateContent ("p".toList) ("2.0.0".toList) ("a 1.0.0 b 1.0.0".toList) []
      = .ok ("a 1.0.0 b 1.0.0".toList)
    ∧ (⟨".v".toList, some ("1.0.0".toList), none, none⟩ : ConfigFilter).result
      = some ("1.0.0".toList)
    ∧ 2 ≤ strCount ("1.0.0".toList) ("a 1.0.0 b 1.0.0".toList)
    ∧ updateContent ("p".toList) ("2.0.0".toList) ("a 1.0.0 b 1.0.0".toList)
        ([] ++ ⟨".v".toList, some ("1.0.0".toList), none, none⟩ :: [])
      = .error (.multipleOccurrences ("1.0.0".toList) ("p".toList)) :=
  ⟨rfl, rfl, by decide,
    (C1_update_occurrence_cases ("p".toList) ("2.0.0".toList)
      ("a 1.0.0 b 1.0.0".toList) [] []
      ⟨".v".toList, some ("1.0.0".toList), none, none⟩
      ("a 1.0.0 b 1.0.0".toList) ("1.0.0".toList) rfl rfl).2.1 (by decide)⟩

/-- C2: the update is per-file transactional and fail-fast.  If the files
before `cf` all validated and were written (producing `fs1`), and any
filter of `cf` fails validation on `cf`'s current content, then the whole
update of the file list stops with exactly that error: the resulting file
system is `fs1` — `cf` itself is not written, and no file after `cf` is
processed or written. -/
theorem C2_per_file_fail_fast (version : Str) (cf : ConfigFile)
    (post : List ConfigFile) (content : Str) (e : VquError) :
    ∀ (pre : List ConfigFile) (fs fs1 : Fs) (ns : List Notice),
      updateFiles version fs pre = (fs1, .ok ns) →
      readFs fs1 cf.path = some content →
      updateContent cf.path version content cf.filters = .error e →
      updateFiles version fs (pre ++ cf :: post) = (fs1, .error e) := by
  intro pre
  induction pre with
  | nil =>
    intro fs fs1 ns h hread hupd
    simp only [updateFiles, Prod.mk.injEq] at h
    obtain ⟨h1, -⟩ := h
    subst h1
    simp only [List.nil_append, updateFiles, hread, hupd]
  | cons cf0 pre ih =>
    intro fs fs1 ns h hread hupd
    simp only [updateFiles] at h
    cases hr : readFs fs cf0.path with
    | none => rw [hr] at h; simp at h
    | some c0 =>
      simp only [hr] at h
      cases hu : updateContent cf0.path version c0 cf0.filters with
      | error e0 => rw [hu] at h; simp at h
      | ok nc =>
        simp only [hu] at h
        cases hrec : updateFiles version (writeFs fs cf0.path nc) pre with
        | mk fs2 r2 =>
          rw [hrec] at h
          cases r2 with
          | error e2 => simp [Except.map] at h
          | ok ns2 =>
            simp only [Except.map, Prod.mk.injEq, Except.ok.injEq] at h
            obtain ⟨h1, -⟩ := h
            subst h1
            simp only [List.cons_append, updateFiles, hr, hu, List.append_eq]
            rw [ih (writeFs fs cf0.path nc) fs2 ns2 hrec hread hupd]
            rfl

/-- C2 (witness): with three files, the first validates and is written,
the second fails with 'not found', and the whole update stops there with
the third file untouched. -/
theorem C2_witness :
    updateFiles ("2.0.0".toList) c2fs [c2cfA] = (c2fs1, .ok [⟨"a.yaml".toList, "2.0.0".toList⟩])
    ∧ readFs c2fs1 c2cfB.path = some ("y: 9\n".toList)
    ∧ updateContent c2cfB.path ("2.0.0".toList) ("y: 9\n".toList) c2cfB.filters
      = .error (.notFound ("1.2.3".toList) ("b.yaml".toList))
    ∧ updateFiles ("2.0.0".toList) c2fs ([c2cfA] ++ c2cfB :: [c2cfC])
      = (c2fs1, .error (.notFound ("1.2.3".toList) ("b.yaml".toList))) :=
  ⟨rfl, rfl, rfl,
    C2_per_file_fail_fast ("2.0.0".toList) c2cfB [c2cfC] ("y: 9\n".toList)
      (.notFound ("1.2.3".toList) ("b.yaml".toList)) [c2cfA] c2fs c2fs1
      [⟨"a.yaml".toList, "2.0.0".toList⟩] rfl rfl rfl⟩

/-- C3: the claim says an `Invalid` capture is not fatal (result cleared,
reported inline, evaluation continues with the sibling filter).  In
`cli.py` the capture is stored by the assignment
`config_filter.result = version`, whose pydantic validation raises on an
invalid value, and `eval_project` does not catch it: with the first
filter capturing `abc` (invalid under the default version grammar), the
whole evaluation aborts with that error before reporting the filter or
reaching the second filter, contradicting the claim; the repository's own
test suite and the specification expect the non-fatal behaviour. -/
theorem C3_invalid_capture_is_fatal :
    eval_project rmNone c3exec ("p".toList) c3fs c3proj
      = .error (.notVersion ("abc".toList)) := rfl

/-- C4 (counterexample): the claim says re-running the same update on an
already-updated file fails with 'not found' and never succeeds as a
silent no-op.  In the code the update first refreshes every result by a
fresh extraction, so the refreshed result is the file's current value
(the canonical version), which occurs exactly once: the first run
rewrites `1.0.0` to `2.0.0`, and the second run on the updated file
succeeds again, rewriting the file with identical content — a no-op
success, not a 'not found' failure. -/
theorem C4_counterexample :
    update_project rmNone c4exec ("demo".toList) [("app.yaml".toList, c4content0)] c4proj
      = ([("app.yaml".toList, c4content1)],
          .ok (c4proj1, [⟨"app.yaml".toList, "2.0.0".toList⟩]))
    ∧ update_project rmNone c4exec ("demo".toList) [("app.yaml".toList, c4content1)] c4proj
      = ([("app.yaml".toList, c4content1)],
          .ok (c4proj2, [⟨"app.yaml".toList, "2.0.0".toList⟩])) :=
  ⟨rfl, rfl⟩

/-- C4 (amended): re-running the same update on a file whose target value
was already replaced by the canonical version succeeds as a no-op rather
than failing: the update first refreshes the filter's result by a fresh
extraction pass, and when the engine reports the file's current value —
the canonical version, valid and occurring exactly once — the update
replaces it by itself and leaves every file's content unchanged.  (A
'not found' error would instead require the refreshed result to no longer
occur in the content.) -/
theorem C4_rerun_noop (rm : RegexMatch) (exec : QueryExec) (name : Str)
    (fmt : ConfigFileFormat) (path expr content version : Str) (r0 : Option Str)
    (fs : Fs) (hread : readFs fs path = some content)
    (hout : pyStrip (exec (ConfigFileFormat.to_yq_format fmt) expr path content).stdout
      = version)
    (hne : version ≠ []) (hnull : pyLower version ≠ ("null".toList))
    (hval : pep440Valid version = true)
    (hcount : strCount version content = 1) :
    ∃ fs2 p2 ns,
      update_project rm exec name fs ⟨version, [⟨path, fmt, [⟨expr, r0, none, none⟩]⟩]⟩
        = (fs2, .ok (p2, ns))
      ∧ (∀ q, readFs fs2 q = readFs fs q) := by
  have hcap : (if pyStrip (exec (ConfigFileFormat.to_yq_format fmt) expr path content).stdout
        = [] ∨ pyLower (pyStrip (exec (ConfigFileFormat.to_yq_format fmt) expr path
          content).stdout) = "null".toList
      then (none : Option Str)
      else some (pyStrip (exec (ConfigFileFormat.to_yq_format fmt) expr path
        content).stdout)) = some version := by
    rw [hout]
    rw [if_neg (not_or.mpr ⟨hne, hnull⟩)]
  have hset : ConfigFilter.setResult ⟨expr, r0, none, none⟩ rm (some version)
      = .ok ⟨expr, some version, none, none⟩ := by
    simp only [ConfigFilter.setResult, validate_result_data]
    rw [if_neg (not_or.mpr ⟨hne, hnull⟩)]
    rw [if_neg (by simp : ¬ (none : Option Bool) = some true)]
    rw [hval]
    rfl
  have hf : ∃ ls, eval_filter rm exec version (ConfigFileFormat.to_yq_format fmt)
      path content ⟨expr, r0, none, none⟩
      = .ok (⟨expr, some version, none, none⟩, ls) := by
    refine ⟨if (exec (ConfigFileFormat.to_yq_format fmt) expr path content).returncode ≠ 0
      then [ReportLine.filterValue expr (ShownValue.matchesVersion version),
            ReportLine.cmdEcho (ConfigFileFormat.to_yq_format fmt) expr path]
      else [ReportLine.filterValue expr (ShownValue.matchesVersion version)], ?_⟩
    simp only [eval_filter]
    rw [hcap, hset]
    dsimp only
    rw [if_pos (rfl : version = version)]
    rfl
  obtain ⟨ls, hf⟩ := hf
  have hfl := eval_filters_singleton hf
  have hfile := @eval_file_single rm exec version fs
    ⟨path, fmt, [⟨expr, r0, none, none⟩]⟩ content
    [⟨expr, some version, none, none⟩] ls hread hfl
  have hfiles := eval_files_singleton hfile
  have hproj := @eval_project_of rm exec name fs
    ⟨version, [⟨path, fmt, [⟨expr, r0, none, none⟩]⟩]⟩
    [⟨path, fmt, [⟨expr, some version, none, none⟩]⟩]
    (ReportLine.fileHeader path :: ls) hfiles
  have happly : apply_filter path version content ⟨expr, some version, none, none⟩
      = .ok content := by
    simp only [apply_filter]
    rw [hcount]
    rw [if_neg (by omega), if_neg (by omega), replaceFirst_self]
  have hcont : updateContent path version content [⟨expr, some version, none, none⟩]
      = .ok content := by
    simp only [updateContent, happly]
  have hupdf : updateFiles version fs [⟨path, fmt, [⟨expr, some version, none, none⟩]⟩]
      = (writeFs fs path content, .ok [⟨path, version⟩]) := by
    simp only [updateFiles, hread, hcont]
    rfl
  have hproj2 : eval_project rm exec name fs
      ⟨version, [⟨path, fmt, [⟨expr, r0, none, none⟩]⟩]⟩
      = .ok (⟨version, [⟨path, fmt, [⟨expr, some version, none, none⟩]⟩]⟩,
          ReportLine.header name version :: ReportLine.fileHeader path :: ls) := hproj
  refine ⟨writeFs fs path content,
    ⟨version, [⟨path, fmt, [⟨expr, some version, none, none⟩]⟩]⟩,
    [⟨path, version⟩], ?_, readFs_writeFs_of_read hread⟩
  simp only [update_project, hproj2]
  rw [hupdf]
  rfl

/-- C4 (witness): on the already-updated file, the update succeeds and
the file system is unchanged. -/
theorem C4_witness :
    readFs [("app.yaml".toList, c4content1)] ("app.yaml".toList) = some c4content1
    ∧ pyStrip (c4exec (ConfigFileFormat.to_yq_format .yaml) (".version".toList)
        ("app.yaml".toList) c4content1).stdout = "2.0.0".toList
    ∧ ("2.0.0".toList ≠ [] ∧ pyLower ("2.0.0".toList) ≠ ("null".toList))
    ∧ pep440Valid ("2.0.0".toList) = true
    ∧ strCount ("2.0.0".toList) c4content1 = 1
    ∧ ∃ fs2 p2 ns,
        update_project rmNone c4exec ("demo".toList) [("app.yaml".toList, c4content1)]
          ⟨"2.0.0".toList, [⟨"app.yaml".toList, .yaml,
            [⟨".version".toList, none, none, none⟩]⟩]⟩
          = (fs2, .ok (p2, ns))
        ∧ (∀ q, readFs fs2 q = readFs [("app.yaml".toList, c4content1)] q) :=
  ⟨rfl, by decide, ⟨by decide, by decide⟩, by decide, by decide,
    C4_rerun_noop rmNone c4exec ("demo".toList) ConfigFileFormat.yaml
      ("app.yaml".toList) (".version".toList) c4content1 ("2.0.0".toList) none
      [("app.yaml".toList, c4content1)] rfl (by decide) (by decide) (by decide)
      (by decide) (by decide)⟩

/-- C5: validation-rule selection has fixed precedence.  When
`validate_docker_tag` is `True`, the outcome is the Docker-tag check and
is independent of the regex setting and even of the regex engine itself;
when the docker flag is not `True` and a non-empty regex pattern is set,
the regex decides; otherwise the default PEP 440 grammar decides. -/
theorem C5_validation_precedence (rm rm2 : RegexMatch) (docker : Option Bool)
    (regex : Option Str) (v : Str) (hne : v ≠ [])
    (hnull : pyLower v ≠ ("null".toList)) :
    (docker = some true →
      validate_result_data docker regex rm (some v)
        = validate_result_data (some true) none rm2 (some v))
    ∧ (docker ≠ some true → ∀ c cs, regex = some (c :: cs) →
      validate_result_data docker regex rm (some v)
        = if rm (c :: cs) v then .ok (some v) else .error (.regexMismatch (c :: cs) v))
    ∧ (docker ≠ some true → (regex = none ∨ regex = some []) →
      validate_result_data docker regex rm (some v)
        = if pep440Valid v then .ok (some v) else .error (.notVersion v)) := by
  have h0 : ¬(v = [] ∨ pyLower v = "null".toList) := not_or.mpr ⟨hne, hnull⟩
  refine ⟨?_, ?_, ?_⟩
  · rintro rfl
    simp only [validate_result_data]
    rw [if_neg h0, if_neg h0]
    simp only [if_true]
  · intro hd c cs hg
    subst hg
    simp only [validate_result_data]
    rw [if_neg h0, if_neg hd]
  · intro hd hg
    simp only [validate_result_data]
    rw [if_neg h0, if_neg hd]
    rcases hg with rfl | rfl <;> rfl

/-- C5 (witness): with the docker flag set, a configured regex and even a
flipped regex engine change nothing; without the docker flag, the regex
decides. -/
theorem C5_witness :
    validate_result_data (some true) (some ['x']) (fun _ _ => false)
      (some ("1.0".toList))
      = validate_result_data (some true) none (fun _ _ => true) (some ("1.0".toList))
    ∧ validate_result_data none (some ['x']) (fun _ _ => true) (some ("1.0".toList))
      = .ok (some ("1.0".toList)) := by
  constructor
  · exact (C5_validation_precedence (fun _ _ => false) (fun _ _ => true) (some true)
      (some ['x']) ("1.0".toList) (by decide) (by decide)).1 rfl
  · have h := (C5_validation_precedence (fun _ _ => true) (fun _ _ => true) none
      (some ['x']) ("1.0".toList) (by decide) (by decide)).2.1 (by simp) 'x' [] rfl
    rw [h]
    rfl

/-- C6: with `validate_docker_tag` enabled, a trimmed non-empty,
non-`"null"` captured value is accepted and stored exactly when it
matches the specification's Docker-tag grammar
`[A-Za-z0-9_][A-Za-z0-9_.-]{0,127}`. -/
theorem C6_docker_tag_acceptance (rm : RegexMatch) (regex : Option Str) (v : Str)
    (hne : v ≠ []) (hnull : pyLower v ≠ ("null".toList)) :
    validate_result_data (some true) regex rm (some v) = .ok (some v)
      ↔ dockerTagSpec v := by
  have h0 : ¬(v = [] ∨ pyLower v = "null".toList) := not_or.mpr ⟨hne, hnull⟩
  simp only [validate_result_data]
  rw [if_neg h0]
  simp only [if_true]
  by_cases hd : isDockerTag v
  · rw [if_pos hd]
    exact iff_of_true rfl ((isDockerTag_iff v).mp hd)
  · rw [if_neg hd]
    exact iff_of_false (by simp) (fun hs => hd ((isDockerTag_iff v).mpr hs))

/-- C6 (witness): `1.0-alpha_1` is accepted and stored. -/
theorem C6_witness :
    "1.0-alpha_1".toList ≠ []
    ∧ pyLower ("1.0-alpha_1".toList) ≠ ("null".toList)
    ∧ (validate_result_data (some true) none rmNone (some ("1.0-alpha_1".toList))
        = .ok (some ("1.0-alpha_1".toList)) ↔ dockerTagSpec ("1.0-alpha_1".toList))
    ∧ validate_result_data (some true) none rmNone (some ("1.0-alpha_1".toList))
      = .ok (some ("1.0-alpha_1".toList)) :=
  ⟨by decide, by decide,
    C6_docker_tag_acceptance rmNone none ("1.0-alpha_1".toList) (by decide) (by decide),
    rfl⟩

/-- C7: a captured string that is empty after trimming, or equals "null"
case-insensitively after trimming, is classified as Missing: whatever the
filter's validation settings and its previously stored result, the result
field is set to absent, the filter is reported as not found, and
evaluation continues normally (the command is additionally echoed when
the engine exited non-zero). -/
theorem C7_missing_classification (rm : RegexMatch) (exec : QueryExec)
    (pv format path content : Str) (flt : ConfigFilter)
    (h : pyStrip (exec format flt.expression path content).stdout = []
      ∨ pyLower (pyStrip (exec format flt.expression path content).stdout)
        = "null".toList) :
    eval_filter rm exec pv format path content flt
      = .ok ({ flt with result := none },
          ReportLine.filterValue flt.expression ShownValue.notFound ::
            (if (exec format flt.expression path content).returncode ≠ 0
             then [ReportLine.cmdEcho format flt.expression path] else [])) := by
  have hcap : (if pyStrip (exec format flt.expression path content).stdout = []
        ∨ pyLower (pyStrip (exec format flt.expression path content).stdout)
          = "null".toList
      then (none : Option Str)
      else some (pyStrip (exec format flt.expression path content).stdout)) = none :=
    if_pos h
  have hset : flt.setResult rm none = .ok { flt with result := none } := rfl
  simp only [eval_filter]
  rw [hcap, hset]
  dsimp only
  by_cases hrc : (exec format flt.expression path content).returncode ≠ 0
  · rw [if_pos hrc, if_pos hrc]
    rfl
  · rw [if_neg hrc, if_neg hrc]

/-- C7 (witness): the capture ` NULL \n` clears a previously stored
result on a filter with docker-tag and regex settings, and is reported as
not found. -/
theorem C7_witness :
    (pyStrip (c7exec ("yaml".toList) (".v".toList) ("a.yaml".toList)
        ("x: 1\n".toList)).stdout = []
      ∨ pyLower (pyStrip (c7exec ("yaml".toList) (".v".toList) ("a.yaml".toList)
          ("x: 1\n".toList)).stdout) = "null".toList)
    ∧ eval_filter rmNone c7exec ("1.0.0".toList) ("yaml".toList) ("a.yaml".toList)
        ("x: 1\n".toList) ⟨".v".toList, some ("9".toList), some true, some ("x".toList)⟩
      = .ok (⟨".v".toList, none, some true, some ("x".toList)⟩,
          ReportLine.filterValue (".v".toList) ShownValue.notFound ::
            (if (c7exec ("yaml".toList) (".v".toList) ("a.yaml".toList)
                ("x: 1\n".toList)).returncode ≠ 0
             then [ReportLine.cmdEcho ("yaml".toList) (".v".toList) ("a.yaml".toList)]
             else [])) :=
  ⟨by decide,
    C7_missing_classification rmNone c7exec ("1.0.0".toList) ("yaml".toList)
      ("a.yaml".toList) ("x: 1\n".toList)
      ⟨".v".toList, some ("9".toList), some true, some ("x".toList)⟩ (by decide)⟩

/-- C8: the claimed invariant — a present `result` has passed the
filter's configured validation — is broken by construction.  pydantic
validates fields in declaration order, so when `result` is validated at
construction time, `info.data` does not yet contain `validate_docker_tag`
or `validate_regex`, and the default grammar is applied regardless of the
settings: constructing a filter with `validate_docker_tag = True` and
`result = "1.0.0+abc"` succeeds (the value is a valid PEP 440 version)
although the value fails the configured Docker-tag validation, which the
assignment path would reject.  The claim matches the validator's own
docstring and the specification; the construction path is the slip. -/
theorem C8_construction_invariant_violation :
    ConfigFilter.pyInit (".v".toList) (some ("1.0.0+abc".toList)) (some true) none
      = .ok ⟨".v".toList, some ("1.0.0+abc".toList), some true, none⟩
    ∧ isDockerTag ("1.0.0+abc".toList) = false
    ∧ validate_result_data (some true) none rmNone (some ("1.0.0+abc".toList))
      = .error (.notDockerTag ("1.0.0+abc".toList)) :=
  ⟨rfl, by decide, rfl⟩

/-- C9: a successful evaluation pass changes nothing but the filters'
result fields: the project's version and every file's path, format and
filters' expressions and validation settings are intact (and the
embedding of `eval_project` contains no file write, as the source
contains none). -/
theorem C9_eval_frame (rm : RegexMatch) (exec : QueryExec) (name : Str) (fs : Fs)
    (p p2 : Project) (ls : List ReportLine)
    (h : eval_project rm exec name fs p = .ok (p2, ls)) :
    projectSkeleton p2 = projectSkeleton p := by
  simp only [eval_project] at h
  cases heq : eval_files rm exec p.version fs p.config_files with
  | error e => rw [heq] at h; exact absurd h (by simp)
  | ok pr =>
    obtain ⟨cfs, ls2⟩ := pr
    rw [heq] at h
    simp only [Except.ok.injEq, Prod.mk.injEq] at h
    rw [← h.1]
    simp only [projectSkeleton]
    rw [eval_files_skeleton heq]

/-- C9 (witness): a concrete evaluation pass preserves the skeleton. -/
theorem C9_witness :
    eval_project rmNone c4exec ("demo".toList) [("app.yaml".toList, c4content0)] c4proj
      = .ok (c4proj1,
          [ReportLine.header ("demo".toList) ("2.0.0".toList),
           ReportLine.fileHeader ("app.yaml".toList),
           ReportLine.filterValue (".version".toList)
             (ShownValue.differs ("1.0.0".toList))])
    ∧ projectSkeleton c4proj1 = projectSkeleton c4proj :=
  ⟨rfl, C9_eval_frame rmNone c4exec ("demo".toList) [("app.yaml".toList, c4content0)]
    c4proj c4proj1 _ rfl⟩

/-- C10 (counterexample): the claim says that for a file with two filters
whose stored results are the same string `r`, with `r` occurring exactly
once in the original content and `r` not a substring of the canonical
version, the update fails with 'not found' on the second filter and the
file is unmodified.  With content `abb`, `r = ab` and canonical version
`xa`, the first replacement yields `xab`, re-introducing `ab` across the
edit boundary: the second filter finds it, the update succeeds and the
file is rewritten to `xxa`. -/
theorem C10_counterexample :
    strCount ("ab".toList) ("abb".toList) = 1
    ∧ strCount ("ab".toList) ("xa".toList) = 0
    ∧ updateFiles ("xa".toList) [("f".toList, "abb".toList)]
        [⟨"f".toList, .yaml, [⟨"e1".toList, some ("ab".toList), some true, none⟩,
                              ⟨"e2".toList, some ("ab".toList), some true, none⟩]⟩]
      = ([("f".toList, "xxa".toList)], .ok [⟨"f".toList, "xa".toList⟩]) :=
  ⟨by decide, by decide, rfl⟩

/-- C10 (amended): occurrence counts for later filters are computed
against the content as already mutated by the preceding replacements.
For a file with two filters whose stored results are the same string `r`,
if `r` occurs (non-overlapping count) exactly once in the original
content and does not occur at all in the content obtained by replacing
that occurrence with the canonical version — in particular `r` is not a
substring of the canonical version and no occurrence straddles the edit —
then the update fails with the 'not found' error on the second filter and
the file is left unmodified. -/
theorem C10_sequential_content (path version content r : Str)
    (fmt : ConfigFileFormat) (e1 e2 : Str) (d1 d2 : Option Bool)
    (g1 g2 : Option Str) (fs : Fs)
    (hread : readFs fs path = some content)
    (h1 : strCount r content = 1)
    (h0 : strCount r (replaceFirst r version content) = 0) :
    updateFiles version fs
      [⟨path, fmt, [⟨e1, some r, d1, g1⟩, ⟨e2, some r, d2, g2⟩]⟩]
      = (fs, .error (.notFound r path)) := by
  have ha1 : apply_filter path version content ⟨e1, some r, d1, g1⟩
      = .ok (replaceFirst r version content) := by
    simp only [apply_filter]
    rw [h1]
    rw [if_neg (by omega), if_neg (by omega)]
  have ha2 : apply_filter path version (replaceFirst r version content)
      ⟨e2, some r, d2, g2⟩ = .error (.notFound r path) := by
    simp only [apply_filter]
    rw [if_pos h0]
  have hcont : updateContent path version content
      [⟨e1, some r, d1, g1⟩, ⟨e2, some r, d2, g2⟩]
      = .error (.notFound r path) := by
    simp only [updateContent, ha1, ha2]
  simp only [updateFiles, hread, hcont]

/-- C10 (witness): with content `version: 1.0.0`, result `1.0.0` on both
filters and canonical version `9.9.9`, the second filter fails with 'not
found' and the file is unmodified. -/
theorem C10_witness :
    readFs [("f".toList, "version: 1.0.0\n".toList)] ("f".toList)
      = some ("version: 1.0.0\n".toList)
    ∧ strCount ("1.0.0".toList) ("version: 1.0.0\n".toList) = 1
    ∧ strCount ("1.0.0".toList)
        (replaceFirst ("1.0.0".toList) ("9.9.9".toList) ("version: 1.0.0\n".toList)) = 0
    ∧ updateFiles ("9.9.9".toList) [("f".toList, "version: 1.0.0\n".toList)]
        [⟨"f".toList, .yaml, [⟨"e1".toList, some ("1.0.0".toList), none, none⟩,
                              ⟨"e2".toList, some ("1.0.0".toList), none, none⟩]⟩]
      = ([("f".toList, "version: 1.0.0\n".toList)],
          .error (.notFound ("1.0.0".toList) ("f".toList))) :=
  ⟨rfl, by decide, by decide,
    C10_sequential_content ("f".toList) ("9.9.9".toList)
      ("version: 1.0.0\n".toList) ("1.0.0".toList) ConfigFileFormat.yaml
      ("e1".toList) ("e2".toList) none none none none
      [("f".toList, "version: 1.0.0\n".toList)] rfl (by decide) (by decide)⟩

end Vqu
